import Mathlib

/-!
Shallow embedding of the gpmd RPC runtime (Go) and a verification of its
specification claims.

Modelling conventions: time instants and durations are natural numbers
(Go `time.Time` / `time.Duration` collapse to `Nat`); Go maps are association
lists; Go `nil`-able results are `Option`; fallible functions return `Except`.
-/

namespace Gpmd

/-! ## Strings: Go's bytewise order (used by `sort.Strings`) -/

/-- Lexicographic comparison of character lists, modelling Go's built-in
string order (bytewise; identical on the ASCII data this repository
handles). -/
def charListLe : List Char → List Char → Bool
  | [], _ => true
  | _ :: _, [] => false
  | a :: as, b :: bs =>
    if a.toNat < b.toNat then true
    else if b.toNat < a.toNat then false
    else charListLe as bs

/-- Go string `<=`, modelled on the characters. -/
def goStrLe (a b : String) : Bool :=
  charListLe a.data b.data

def charListLe_total : ∀ a b : List Char, charListLe a b = true ∨ charListLe b a = true
  | [], _ => Or.inl rfl
  | _ :: _, [] => Or.inr rfl
  | a :: as, b :: bs => by
    by_cases hab : a.toNat < b.toNat
    · exact Or.inl (by simp [charListLe, hab])
    · by_cases hba : b.toNat < a.toNat
      · exact Or.inr (by simp [charListLe, hba, hab])
      · rcases charListLe_total as bs with h | h
        · exact Or.inl (by simp [charListLe, hab, hba, h])
        · exact Or.inr (by simp [charListLe, hab, hba, h])

def charListLe_trans :
    ∀ a b c : List Char, charListLe a b = true → charListLe b c = true → charListLe a c = true
  | [], _, _, _, _ => rfl
  | _ :: _, [], _, h, _ => by simp [charListLe] at h
  | _ :: _, _ :: _, [], _, h => by simp [charListLe] at h
  | a :: as, b :: bs, c :: cs, h1, h2 => by
    simp only [charListLe] at h1 h2 ⊢
    by_cases hab : a.toNat < b.toNat
    · by_cases hbc : b.toNat < c.toNat
      · rw [if_pos (hab.trans hbc)]
      · by_cases hcb : c.toNat < b.toNat
        · rw [if_neg hbc, if_pos hcb] at h2
          exact absurd h2 (by decide)
        · have hlt : a.toNat < c.toNat := by omega
          rw [if_pos hlt]
    · by_cases hba : b.toNat < a.toNat
      · rw [if_neg hab, if_pos hba] at h1
        exact absurd h1 (by decide)
      · rw [if_neg hab, if_neg hba] at h1
        by_cases hbc : b.toNat < c.toNat
        · have hlt : a.toNat < c.toNat := by omega
          rw [if_pos hlt]
        · by_cases hcb : c.toNat < b.toNat
          · rw [if_neg hbc, if_pos hcb] at h2
            exact absurd h2 (by decide)
          · rw [if_neg hbc, if_neg hcb] at h2
            have hac : ¬ a.toNat < c.toNat := by omega
            have hca : ¬ c.toNat < a.toNat := by omega
            rw [if_neg hac, if_neg hca]
            exact charListLe_trans as bs cs h1 h2

instance : IsTotal String (fun a b => goStrLe a b = true) :=
  ⟨fun a b => charListLe_total a.data b.data⟩

instance : IsTrans String (fun a b => goStrLe a b = true) :=
  ⟨fun a b c => charListLe_trans a.data b.data c.data⟩

/-- Go `sort.Strings`, modelled with insertion sort under `goStrLe`. -/
def sortStrings (l : List String) : List String :=
  l.insertionSort (fun a b => goStrLe a b = true)

/-! ## Registry service (registry.go: `Registry`, `ServerItem`) -/

/-- Registry entry: an address plus the instant of its last heartbeat
(`ServerItem` in the source; the `start` field). -/
structure ServerItem where
  addr : String
  start : Nat
deriving DecidableEq

/-- The registry: the configured entry timeout plus the server map
(`map[string]*ServerItem`), modelled as a list of entries; well-formed
registries have unique addresses. -/
structure Registry where
  timeout : Nat
  servers : List ServerItem
deriving DecidableEq

/-- The liveness test from `Registry.aliveServers`:
`r.timeout == 0 || s.start.Add(r.timeout).After(time.Now())`, i.e. the entry
is kept iff the timeout is zero or `start + timeout > now`. -/
def ServerItem.isAlive (timeout now : Nat) (s : ServerItem) : Bool :=
  timeout == 0 || decide (now < s.start + timeout)

/-- `Registry.aliveServers`: returns the alive addresses sorted ascending
(Go `sort.Strings`, modelled with `List.insertionSort`), and deletes every
expired entry from the map. -/
def Registry.aliveServers (r : Registry) (now : Nat) : List String × Registry :=
  (sortStrings ((r.servers.filter (ServerItem.isAlive r.timeout now)).map ServerItem.addr),
   { r with servers := r.servers.filter (ServerItem.isAlive r.timeout now) })

/-- `Registry.putServer`: insert the address stamped with the current instant,
or refresh the instant when the address is already present. -/
def Registry.putServer (r : Registry) (addr : String) (now : Nat) : Registry :=
  if r.servers.any (fun s => s.addr == addr) then
    { r with
      servers := r.servers.map (fun s => if s.addr == addr then { s with start := now } else s) }
  else
    { r with servers := r.servers ++ [⟨addr, now⟩] }

/-- HTTP methods as far as `Registry.ServeHTTP` distinguishes them. -/
inductive HttpMethod where
  | GET
  | POST
  | otherMethod
deriving DecidableEq

/-- The observable part of the HTTP response written by `Registry.ServeHTTP`:
the status code (200 when never set explicitly) and the value of the
`X-GPMD-SERVERS` response header when it is set. -/
structure HttpResponse where
  status : Nat
  serversHeader : Option String
deriving DecidableEq

/-- `Registry.ServeHTTP`: `reqHeader` is the value of the request's
`X-GPMD-SERVERS` header (`""` when absent, as Go's `Header.Get` returns).
GET sets the response header to the comma-joined alive list (purging expired
entries); POST with a non-empty header upserts the address and an empty
header yields status 500; any other method yields status 405. -/
def Registry.serveHTTP (r : Registry) (m : HttpMethod) (reqHeader : String) (now : Nat) :
    HttpResponse × Registry :=
  match m with
  | .GET =>
    let res := r.aliveServers now
    (⟨200, some (String.intercalate "," res.1)⟩, res.2)
  | .POST =>
    if reqHeader == "" then (⟨500, none⟩, r)
    else (⟨200, none⟩, r.putServer reqHeader now)
  | .otherMethod => (⟨405, none⟩, r)

/-! ## Discovery and load balancing (xclient/discovery.go) -/

/-- Load-balancing modes (`SelectMode`). -/
inductive SelectMode where
  | RandomSelect
  | RoundRobinSelect
deriving DecidableEq

/-- `MultiServerDiscovery`: the server list plus the round-robin cursor
(`index`, seeded with a pseudo-random value at construction). -/
structure MultiServerDiscovery where
  servers : List String
  index : Nat
deriving DecidableEq

/-- `MultiServerDiscovery.Get`: `rnd` stands for the value drawn from the
discovery's random source (`d.r.Intn(n)`, reduced modulo `n` here to keep the
model total). An empty list fails; `RandomSelect` picks the drawn position;
`RoundRobinSelect` picks `servers[index % n]` and advances the cursor to
`(index + 1) % n`. -/
def MultiServerDiscovery.Get (d : MultiServerDiscovery) (mode : SelectMode) (rnd : Nat) :
    Except String (String × MultiServerDiscovery) :=
  if h : d.servers.length = 0 then
    .error "rpc discovery: no available servers"
  else
    match mode with
    | .RandomSelect =>
      .ok (d.servers.get ⟨rnd % d.servers.length, Nat.mod_lt _ (Nat.pos_of_ne_zero h)⟩, d)
    | .RoundRobinSelect =>
      .ok (d.servers.get ⟨d.index % d.servers.length, Nat.mod_lt _ (Nat.pos_of_ne_zero h)⟩,
           { d with index := (d.index + 1) % d.servers.length })

/-- Runs `k` consecutive `Get(RoundRobinSelect)` calls, returning the selected
addresses in order together with the final discovery state. -/
def rrRun (d : MultiServerDiscovery) : Nat → List String × MultiServerDiscovery
  | 0 => ([], d)
  | k + 1 =>
    match d.Get .RoundRobinSelect 0 with
    | .error _ => ([], d)
    | .ok sd =>
      let rest := rrRun sd.2 k
      (sd.1 :: rest.1, rest.2)

/-! ## Reflected Go types (service.go: `methodType`, `service`) -/

/-- The fragment of Go's type grammar the service registry inspects:
built-in `int`, the `error` interface, pointers, named structs (carrying the
type name and package path), maps and slices. -/
inductive GoType where
  | int : GoType
  | error : GoType
  | ptr : GoType → GoType
  | structT : String → String → GoType
  | mapT : GoType → GoType → GoType
  | sliceT : GoType → GoType
deriving DecidableEq

/-- Go `reflect.Type.Name()`: named types report their name, unnamed types
(pointers, maps, slices) report `""`. -/
def GoType.name : GoType → String
  | .int => "int"
  | .error => "error"
  | .ptr _ => ""
  | .structT n _ => n
  | .mapT _ _ => ""
  | .sliceT _ => ""

/-- Go `reflect.Type.PkgPath()`: `""` for built-ins and unnamed types. -/
def GoType.pkgPath : GoType → String
  | .structT _ p => p
  | _ => ""

/-- Go `reflect.Type.Elem()`: defined for pointers, maps (value type) and
slices; panics on any other kind, modelled as `none`. -/
def GoType.elem : GoType → Option GoType
  | .ptr t => some t
  | .mapT _ v => some v
  | .sliceT t => some t
  | _ => none

/-- Go `ast.IsExported`: the first character is upper-case. -/
def isExported (s : String) : Bool :=
  match s.data with
  | [] => false
  | c :: _ => c.isUpper

/-- `isExportedOrBuiltinType` from service.go:
`ast.IsExported(t.Name()) || t.PkgPath() == ""`. -/
def isExportedOrBuiltinType (t : GoType) : Bool :=
  isExported t.name || t.pkgPath == ""

/-- A method as reflection presents it: its name, the input types (position 0
is the receiver) and the output types. -/
structure GoMethod where
  name : String
  inTypes : List GoType
  outTypes : List GoType
deriving DecidableEq

/-- `methodType`: the recorded argument and reply types of an admitted
method (the reflective handle and the atomic counter carry no logic the
claims need). -/
structure methodType where
  argType : GoType
  replyType : GoType
deriving DecidableEq

/-- The eligibility test inside `service.registerMethod`: exactly three
inputs (receiver, arg, reply) and one output of type `error`, with both arg
and reply exported or built-in. Note: no check that the reply is a pointer
type. -/
def methodEligible (m : GoMethod) : Bool :=
  match m.inTypes, m.outTypes with
  | [_, argType, replyType], [outType] =>
    outType == GoType.error
      && isExportedOrBuiltinType argType && isExportedOrBuiltinType replyType
  | _, _ => false

/-- `service.registerMethod`: filters the receiver's method set by
`methodEligible` and records each admitted method under its name. -/
def registerMethod (methods : List GoMethod) : List (String × methodType) :=
  (methods.filter methodEligible).map fun m =>
    (m.name, ⟨m.inTypes.getD 1 .int, m.inTypes.getD 2 .int⟩)

/-- `methodType.newArgv`: a fresh carrier of the argument type (pointer args
get a freshly allocated pointee, value args an addressable zero value);
total — it never takes `Elem` of a non-pointer. The model records the type
of the produced carrier. -/
def methodType.newArgv (m : methodType) : GoType :=
  m.argType

/-- `methodType.newReply`: `reflect.New(m.ReplyType.Elem())` — takes `Elem`
of the recorded reply type, which panics (`none`) when that type is not a
pointer, map or slice; on success the carrier is a pointer to the element
type. -/
def methodType.newReply (m : methodType) : Option GoType :=
  (m.replyType.elem).map GoType.ptr

/-- A registered service: its name and the admitted method map
(`service` in the source; the receiver value and reflective type carry no
logic the claims need). -/
structure service where
  name : String
  method : List (String × methodType)
deriving DecidableEq

/-! ## Server-side method resolution (server.go: `findService`) -/

/-- Splits a character list at its last `'.'`:
`some (before, after)` when a dot exists, `none` otherwise — the model of
`strings.LastIndex(serviceMethod, ".")` followed by the two slices. -/
def lastDotSplit : List Char → Option (List Char × List Char)
  | [] => none
  | c :: rest =>
    match lastDotSplit rest with
    | some pq => some (c :: pq.1, pq.2)
    | none => if c = '.' then some ([], rest) else none

/-- `Server.findService`: split the key on the last dot; a key without a dot
is ill-formed, an unregistered service name or an absent method name each
fail with their own error string. -/
def findService (serviceMap : List (String × service)) (serviceMethod : String) :
    Except String (service × methodType) :=
  match lastDotSplit serviceMethod.data with
  | none => .error ("rpc server: service/method request ill-formed:" ++ serviceMethod)
  | some pq =>
    let serviceName := String.mk pq.1
    let methodName := String.mk pq.2
    match serviceMap.lookup serviceName with
    | none => .error ("rpc server: can't find service" ++ serviceName)
    | some svc =>
      match svc.method.lookup methodName with
      | none => .error ("rpc server: can't find method " ++ methodName)
      | some mType => .ok (svc, mType)

/-- Substring containment, used to state what an error text carries. -/
def containsStr (s sub : String) : Prop :=
  ∃ a b, s = a ++ sub ++ b

/-! ## Server-side dispatch (server.go: `handleRequest`; the `Foo.Sum`
example service from the repository's test and example files) -/

/-- Response bodies the server can write: the `invalidRequest` placeholder
or a decoded reply value (an `int` in the `Foo.Sum` scenario). -/
inductive RespBody where
  | invalidRequest : RespBody
  | intReply : Int → RespBody
deriving DecidableEq

/-- A response frame as the server emits it: the header's error string plus
the body. -/
structure Response where
  error : String
  body : RespBody
deriving DecidableEq

/-- The timeout error text from `handleRequest`
(`"rpc server: request handle timeout: expect within %s"`). -/
def timeoutErrMsg (timeout : Nat) : String :=
  "rpc server: request handle timeout: expect within " ++ toString timeout

/-- `Server.handleRequest`, as observable behaviour: given the handle
timeout, the error returned by `service.call`, and whether the timer fired
before the method returned, it yields the list of responses ever emitted for
the request and whether `handleRequest` itself returns (reaching its
deferred `wg.Done`). The inner goroutine signals `called`, and only on a
method error sends the error response and signals `sent`; when the method
succeeds no send and no `sent` signal exist in the source, so the
`<-sent` receive blocks forever (`false`). -/
def handleRequest (timeout : Nat) (callErr : Option String) (timerFirst : Bool) :
    List Response × Bool :=
  if timeout = 0 then
    match callErr with
    | some e => ([⟨e, .invalidRequest⟩], true)
    | none => ([], false)
  else if timerFirst then
    match callErr with
    | some e => ([⟨timeoutErrMsg timeout, .invalidRequest⟩, ⟨e, .invalidRequest⟩], true)
    | none => ([⟨timeoutErrMsg timeout, .invalidRequest⟩], true)
  else
    match callErr with
    | some e => ([⟨e, .invalidRequest⟩], true)
    | none => ([], false)

/-- The `Args` struct of the example service. -/
structure Args where
  num1 : Int
  num2 : Int
deriving DecidableEq

/-- `Foo.Sum`: `*reply = args.Num1 + args.Num2; return nil` — yields the
value written through the reply pointer and the returned error. -/
def fooSum (args : Args) : Int × Option String :=
  (args.num1 + args.num2, none)

/-- The response the specification expects for a successful call: empty
header error and the reply value as body. -/
def successResponse (reply : Int) : Response :=
  ⟨"", .intReply reply⟩

/-! ## Handshake options and dialing (server.go: `Option`, `DefaultOption`,
`ServeConn`; client.go: `parseOptions`, `dialTimeout`) -/

/-- The protocol magic number, `0x1234567`. -/
def magicNumber : Int := 0x1234567

/-- The `Option` handshake record. Durations are nanoseconds. -/
structure GoOption where
  magicNumber : Int
  codeType : String
  connectTimeout : Nat
  handleTimeout : Nat
deriving DecidableEq

/-- `DefaultOption`: the magic number, gob codec, 10 s connect timeout,
unbounded (zero) handle timeout. -/
def defaultOption : GoOption :=
  ⟨magicNumber, "application/gob", 10000000000, 0⟩

/-- `parseOptions`: an empty variadic list or a leading Go `nil` yields
`DefaultOption`; more than one (non-nil-leading) option is an error;
otherwise the caller's option has its magic number overwritten with the
default and an empty codec identifier replaced by the default codec. -/
def parseOptions (opts : List (Option GoOption)) : Except String GoOption :=
  match opts with
  | [] => .ok defaultOption
  | none :: _ => .ok defaultOption
  | some opt :: rest =>
    match rest with
    | _ :: _ => .error "number of options is more than one"
    | [] =>
      .ok { opt with
            magicNumber := defaultOption.magicNumber
            codeType := if opt.codeType = "" then defaultOption.codeType else opt.codeType }

/-- The magic-number guard of `Server.ServeConn`: the connection is kept
only when `opt.MagicNumber == MagicNumber`. -/
def serverAcceptsMagic (opt : GoOption) : Bool :=
  opt.magicNumber == magicNumber

/-- The error text of the connect-timeout branch of `dialTimeout`. -/
def connectTimeoutErrMsg (d : Nat) : String :=
  "rpc client: connect timeout: expect within " ++ toString d

/-- Discriminates the error case of a dial result. -/
def exceptIsErr : Except String Unit → Bool
  | .error _ => true
  | .ok _ => false

/-- `dialTimeout`, as observable behaviour. Inputs: the variadic options,
the result of `net.DialTimeout` (`some e` = transport dial failed), the
result the `f(conn, opt)` goroutine would deliver on its channel (the client
abstracted to `Unit`), and whether the `ConnectTimeout` timer fires before
that delivery. Output: the returned result, and whether the opened transport
connection ends up closed (the deferred close runs exactly when the returned
error is non-nil). With a zero `ConnectTimeout` the code waits for the
goroutine unconditionally; otherwise the timer races it. -/
def dialTimeout (opts : List (Option GoOption)) (dialErr : Option String)
    (fResult : Except String Unit) (timerFirst : Bool) :
    Except String Unit × Bool :=
  match parseOptions opts with
  | .error e => (.error e, false)
  | .ok opt =>
    match dialErr with
    | some e => (.error e, false)
    | none =>
      if opt.connectTimeout = 0 then
        (fResult, exceptIsErr fResult)
      else if timerFirst then
        (.error (connectTimeoutErrMsg opt.connectTimeout), true)
      else
        (fResult, exceptIsErr fResult)

/-! ## Client call signalling (client.go: `registerCall`, `removeCall`,
`send`, `receive`, `terminateCalls`)

A labelled transition system over the client's bookkeeping state. Registered
calls are identified by their sequence number (`registerCall` hands out
`client.seq`, strictly increasing from 1, so sequence numbers are never
reused). The mutexes of the source serialise the modelled steps: each event
below is one critical section of the code. `signals` records, per `done()`
invocation on a registered call, the call's sequence number; a call is
"signalled exactly once" when its number appears exactly once. A call whose
registration fails (`regFail`, the closing/shutdown branch of `send`) never
obtains a sequence number and is signalled exactly once by its single
`call.done()` — the model counts those events in `regFailSignals`. -/

/-- The atomic events of the client multiplexer. -/
inductive Ev where
  | reg
  | regFail
  | writeFail : Nat → Ev
  | deliver : Nat → Ev
  | close
  | terminate
deriving DecidableEq

/-- The client bookkeeping state: next sequence number, pending sequence
numbers, the `closing`/`shutdown` flags, whether the receive loop has
terminated, the signalled sequence numbers, and the count of
registration-failure signals. -/
structure ClState where
  seq : Nat
  pending : List Nat
  closing : Bool
  shutdown : Bool
  terminated : Bool
  signals : List Nat
  regFailSignals : Nat
deriving DecidableEq

/-- The state of a freshly constructed client (`NewClientCodec`): sequence
counter 1, empty pending map, all flags clear. -/
def initClState : ClState :=
  ⟨1, [], false, false, false, [], 0⟩

/-- One step of the client. `reg` is the successful branch of
`registerCall` inside `send` (guarded by the availability check);
`regFail` its failing branch (one `done()` on a never-registered call);
`writeFail s` is `send`'s write-failure path (`removeCall` then `done()`
only when the call is still pending); `deliver s` is one iteration of
`receive` (the header-error and body-decode cases both remove and signal,
the no-such-call case discards); `close` is `Client.Close`;
`terminate` is `terminateCalls`: mark shutdown, signal every pending call,
clear the pending map. -/
def step (st : ClState) : Ev → ClState
  | .reg =>
    if st.closing || st.shutdown then st
    else { st with pending := st.seq :: st.pending, seq := st.seq + 1 }
  | .regFail =>
    if st.closing || st.shutdown then { st with regFailSignals := st.regFailSignals + 1 }
    else st
  | .writeFail s =>
    if s ∈ st.pending then
      { st with pending := st.pending.erase s, signals := s :: st.signals }
    else st
  | .deliver s =>
    if !st.terminated && s ∈ st.pending then
      { st with pending := st.pending.erase s, signals := s :: st.signals }
    else st
  | .close => { st with closing := true }
  | .terminate =>
    if st.terminated then st
    else { st with
           shutdown := true
           terminated := true
           signals := st.pending ++ st.signals
           pending := [] }

/-- Runs a client history from the initial state. -/
def runClient (es : List Ev) : ClState :=
  es.foldl step initClState

/-- The client bookkeeping invariant: sequence numbers start at 1 and grow;
pending numbers are distinct, already handed out, and unsignalled; no number
is signalled twice; every handed-out number is either still pending or
signalled exactly once; after termination nothing is pending and the client
is shut down. -/
def ClInv (st : ClState) : Prop :=
  1 ≤ st.seq
    ∧ (∀ x ∈ st.pending, 1 ≤ x ∧ x < st.seq)
    ∧ st.pending.Nodup
    ∧ (∀ x ∈ st.pending, st.signals.count x = 0)
    ∧ (∀ x, st.signals.count x ≤ 1)
    ∧ (∀ x ∈ st.signals, 1 ≤ x ∧ x < st.seq)
    ∧ (∀ x, 1 ≤ x → x < st.seq → x ∈ st.pending ∨ st.signals.count x = 1)
    ∧ (st.terminated = true → st.pending = [] ∧ st.shutdown = true)

/-! ## Theorems -/

/-- C9: method eligibility does not require the reply to be a pointer type.
The method `Sum2(Args, int) error` on receiver `*Foo` — three inputs, one
`error` output, exported/built-in argument and reply, but a non-pointer
reply — is admitted by `registerMethod`, and `newReply` on its descriptor
takes `Elem` of the non-pointer type `int` and panics (`none`): the server's
per-request reply-carrier construction is not total over the methods that
registration admits. -/
theorem registerMethod_admits_method_on_which_newReply_panics :
    registerMethod
        [⟨"Sum2", [.ptr (.structT "Foo" "main"), .structT "Args" "main", .int], [.error]⟩]
        = [("Sum2", ⟨GoType.structT "Args" "main", GoType.int⟩)]
      ∧ methodType.newReply ⟨GoType.structT "Args" "main", GoType.int⟩ = none := by
  exact ⟨rfl, rfl⟩

/-- C10: every option record that `parseOptions` accepts carries the fixed
protocol magic number (a caller-supplied magic number is overwritten, and an
empty codec identifier is replaced by the default codec), so the magic-number
guard of `ServeConn` can never reject a handshake produced from it. -/
theorem parseOptions_magic_fixed (opts : List (Option GoOption)) (opt : GoOption)
    (h : parseOptions opts = .ok opt) :
    opt.magicNumber = magicNumber
      ∧ serverAcceptsMagic opt = true
      ∧ (∀ p, opts = [some p] → p.codeType = "" → opt.codeType = defaultOption.codeType) := by
  rcases opts with _ | ⟨_ | p, rest⟩
  · injection h with h
    subst h
    exact ⟨rfl, rfl, fun p hp => by cases hp⟩
  · injection h with h
    subst h
    refine ⟨rfl, rfl, fun p hp => ?_⟩
    simp at hp
  · rcases rest with _ | ⟨o2, rest2⟩
    · injection h with h
      subst h
      refine ⟨rfl, rfl, ?_⟩
      intro q hq hempty
      have hpq : p = q := by simpa using hq
      subst hpq
      simp [hempty]
    · exact absurd h (by simp [parseOptions])

/-- Witness for C10 at a concrete input: an option with a wrong magic number
and an empty codec identifier is accepted and normalised. -/
theorem parseOptions_magic_fixed_witness :
    parseOptions [some ⟨999, "", 77, 0⟩] = .ok ⟨magicNumber, "application/gob", 77, 0⟩
      ∧ ((⟨magicNumber, "application/gob", 77, 0⟩ : GoOption).magicNumber = magicNumber
        ∧ serverAcceptsMagic ⟨magicNumber, "application/gob", 77, 0⟩ = true
        ∧ (∀ p, [some (⟨999, "", 77, 0⟩ : GoOption)] = [some p] → p.codeType = "" →
            (⟨magicNumber, "application/gob", 77, 0⟩ : GoOption).codeType
              = defaultOption.codeType)) :=
  ⟨rfl, parseOptions_magic_fixed [some ⟨999, "", 77, 0⟩] ⟨magicNumber, "application/gob", 77, 0⟩ rfl⟩

/-- C1 (code bug): `Foo.Sum` with `{Num1:3, Num2:4}` returns reply `7` and a
nil error, but `handleRequest`'s success path emits nothing at all — the
goroutine signals `called` and returns without ever calling `sendResponse`
or signalling `sent`, so the emitted-response list is empty (not the
expected success response) and `handleRequest` never completes. -/
theorem handleRequest_success_emits_no_response :
    fooSum ⟨3, 4⟩ = (7, none)
      ∧ handleRequest 0 (fooSum ⟨3, 4⟩).2 false = ([], false)
      ∧ ([] : List Response) ≠ [successResponse 7] := by
  exact ⟨rfl, rfl, by decide⟩

/-- C3: whenever the parsed option carries a positive connect timeout, the
transport dial succeeded, and the timer fires before client construction
delivers its result, `dialTimeout` returns the connect-timeout error — whose
text contains `connect timeout` — and the connection is closed. -/
theorem dialTimeout_timer_fires (opts : List (Option GoOption)) (opt : GoOption)
    (fResult : Except String Unit)
    (hp : parseOptions opts = .ok opt) (hpos : 0 < opt.connectTimeout) :
    dialTimeout opts none fResult true
        = (.error (connectTimeoutErrMsg opt.connectTimeout), true)
      ∧ containsStr (connectTimeoutErrMsg opt.connectTimeout) "connect timeout" := by
  constructor
  · simp only [dialTimeout, hp]
    rw [if_neg (by omega)]
    simp
  · refine ⟨"rpc client: ", ": expect within " ++ toString opt.connectTimeout, ?_⟩
    show connectTimeoutErrMsg opt.connectTimeout
        = ("rpc client: " ++ "connect timeout") ++ (": expect within " ++ toString opt.connectTimeout)
    rw [← String.append_assoc]
    rfl

/-- Witness for C3 at a concrete input: a 100-unit connect timeout with a
construction that would otherwise succeed. -/
theorem dialTimeout_timer_fires_witness :
    dialTimeout [some ⟨5, "x", 100, 0⟩] none (.ok ()) true
        = (.error (connectTimeoutErrMsg (⟨magicNumber, "x", 100, 0⟩ : GoOption).connectTimeout),
           true)
      ∧ containsStr (connectTimeoutErrMsg (⟨magicNumber, "x", 100, 0⟩ : GoOption).connectTimeout)
          "connect timeout" :=
  dialTimeout_timer_fires [some ⟨5, "x", 100, 0⟩] ⟨magicNumber, "x", 100, 0⟩ (.ok ()) rfl
    (by decide)

/-- C7: `Registry.ServeHTTP` on POST with a non-empty `X-GPMD-SERVERS`
header upserts the address — the refreshed entry is present, entries for
other addresses are untouched, and every entry for that address carries the
refreshed timestamp; POST with the header missing answers 500 and leaves the
registry unchanged; any method other than GET and POST answers 405. -/
theorem serveHTTP_post_taxonomy (r : Registry) (addr : String) (now : Nat) :
    (addr ≠ "" →
        (r.serveHTTP .POST addr now).1.status = 200
        ∧ (⟨addr, now⟩ : ServerItem) ∈ (r.serveHTTP .POST addr now).2.servers
        ∧ (∀ it : ServerItem, it.addr ≠ addr →
            (it ∈ (r.serveHTTP .POST addr now).2.servers ↔ it ∈ r.servers))
        ∧ (∀ it : ServerItem, it ∈ (r.serveHTTP .POST addr now).2.servers →
            it.addr = addr → it = ⟨addr, now⟩))
      ∧ r.serveHTTP .POST "" now = (⟨500, none⟩, r)
      ∧ r.serveHTTP .otherMethod addr now = (⟨405, none⟩, r) := by
  refine ⟨?_, ?_, rfl⟩
  · intro hne
    have hbe : (addr == "") = false := by
      simp [hne]
    have hstep : r.serveHTTP .POST addr now = (⟨200, none⟩, r.putServer addr now) := by
      simp only [Registry.serveHTTP, hbe]
      rfl
    rw [hstep]
    refine ⟨rfl, ?_, ?_, ?_⟩
    · by_cases hany : r.servers.any (fun s => s.addr == addr)
      · simp only [Registry.putServer, if_pos hany]
        rcases List.any_eq_true.mp hany with ⟨s, hs, hseq⟩
        have hsa : s.addr = addr := by simpa using hseq
        refine List.mem_map.mpr ⟨s, hs, ?_⟩
        simp [hseq, hsa]
      · simp only [Registry.putServer, if_neg hany]
        exact List.mem_append_right _ (List.mem_singleton.mpr rfl)
    · intro it hit
      by_cases hany : r.servers.any (fun s => s.addr == addr)
      · simp only [Registry.putServer, if_pos hany]
        constructor
        · intro hmem
          rcases List.mem_map.mp hmem with ⟨s, hs, hupd⟩
          by_cases hsa : (s.addr == addr)
          · rw [if_pos hsa] at hupd
            have : it.addr = addr := by
              rw [← hupd]
              simpa using hsa
            exact absurd this hit
          · rw [if_neg hsa] at hupd
            exact hupd ▸ hs
        · intro hmem
          refine List.mem_map.mpr ⟨it, hmem, ?_⟩
          have : (it.addr == addr) = false := by simp [hit]
          rw [if_neg (by simp [this])]
      · simp only [Registry.putServer, if_neg hany]
        constructor
        · intro hmem
          rcases List.mem_append.mp hmem with hmem' | hmem'
          · exact hmem'
          · have : it = ⟨addr, now⟩ := List.mem_singleton.mp hmem'
            rw [this] at hit
            exact absurd rfl hit
        · exact fun hmem => List.mem_append_left _ hmem
    · intro it hit hita
      by_cases hany : r.servers.any (fun s => s.addr == addr)
      · simp only [Registry.putServer, if_pos hany] at hit
        rcases List.mem_map.mp hit with ⟨s, hs, hupd⟩
        by_cases hsa : (s.addr == addr)
        · rw [if_pos hsa] at hupd
          have hsa' : s.addr = addr := by simpa using hsa
          rw [← hupd]
          simp [hsa']
        · rw [if_neg hsa] at hupd
          have : s.addr = addr := by rw [hupd]; exact hita
          simp [this] at hsa
      · simp only [Registry.putServer, if_neg hany] at hit
        rcases List.mem_append.mp hit with hmem' | hmem'
        · exfalso
          apply hany
          refine List.any_eq_true.mpr ⟨it, hmem', ?_⟩
          simp [hita]
        · exact List.mem_singleton.mp hmem'
  · rfl

theorem lastDotSplit_eq_none_iff : ∀ cs : List Char, lastDotSplit cs = none ↔ '.' ∉ cs
  | [] => by simp [lastDotSplit]
  | c :: rest => by
    rw [lastDotSplit]
    cases h : lastDotSplit rest with
    | some pq =>
      constructor
      · intro hco
        exact Option.noConfusion hco
      · intro hmem
        exfalso
        have hr : '.' ∈ rest := by
          by_contra hnr
          rw [(lastDotSplit_eq_none_iff rest).mpr hnr] at h
          exact Option.noConfusion h
        exact hmem (List.mem_cons_of_mem _ hr)
    | none =>
      by_cases hc : c = '.'
      · rw [if_pos hc]
        subst hc
        constructor
        · intro hco
          exact Option.noConfusion hco
        · intro hmem
          exact absurd (List.mem_cons_self _ _) hmem
      · rw [if_neg hc]
        have hr : '.' ∉ rest := (lastDotSplit_eq_none_iff rest).mp h
        constructor
        · intro _ hmem
          rcases List.mem_cons.mp hmem with he | hm
          · exact hc he.symm
          · exact hr hm
        · intro _
          rfl

theorem lastDotSplit_append : ∀ pre post : List Char, '.' ∉ post →
    lastDotSplit (pre ++ '.' :: post) = some (pre, post)
  | [], post, hn => by
    rw [List.nil_append, lastDotSplit, (lastDotSplit_eq_none_iff post).mpr hn]
    simp
  | c :: pre, post, hn => by
    rw [List.cons_append, lastDotSplit, lastDotSplit_append pre post hn]

/-- C5: server-side resolution splits the service-method key on its last dot
and fails with three distinct error conditions: a key without any dot yields
the ill-formed-key error; an unregistered service name yields the
unknown-service error; a registered service without the requested method
yields an unknown-method error whose text contains
`can't find method <name>`. -/
theorem findService_error_taxonomy (serviceMap : List (String × service)) (key : String) :
    ('.' ∉ key.data →
        findService serviceMap key
          = .error ("rpc server: service/method request ill-formed:" ++ key))
      ∧ (∀ pre post : List Char, key.data = pre ++ '.' :: post → '.' ∉ post →
          (serviceMap.lookup (String.mk pre) = none →
              findService serviceMap key
                = .error ("rpc server: can't find service" ++ String.mk pre))
          ∧ (∀ svc : service, serviceMap.lookup (String.mk pre) = some svc →
              svc.method.lookup (String.mk post) = none →
              findService serviceMap key
                  = .error ("rpc server: can't find method " ++ String.mk post)
                ∧ containsStr ("rpc server: can't find method " ++ String.mk post)
                    ("can't find method " ++ String.mk post))) := by
  constructor
  · intro hnd
    rw [findService, (lastDotSplit_eq_none_iff key.data).mpr hnd]
  · intro pre post hdat hnp
    have hsplit : lastDotSplit key.data = some (pre, post) := by
      rw [hdat]
      exact lastDotSplit_append pre post hnp
    constructor
    · intro hlk
      rw [findService, hsplit]
      simp only [hlk]
    · intro svc hlk hm
      constructor
      · rw [findService, hsplit]
        simp only [hlk, hm]
      · refine ⟨"rpc server: ", "", ?_⟩
        show "rpc server: can't find method " ++ String.mk post
            = ("rpc server: " ++ ("can't find method " ++ String.mk post)) ++ ""
        rw [String.append_empty, ← String.append_assoc,
          show ("rpc server: " ++ "can't find method " : String)
              = "rpc server: can't find method " from rfl]

/-- Witness for C5: a map holding `Foo` with only `Sum`, queried with
`Foo.Nope` — the unknown-method clause at a concrete input. -/
theorem findService_error_taxonomy_witness :
    findService [("Foo", ⟨"Foo", [("Sum", ⟨.structT "Args" "main", .ptr .int⟩)]⟩)] "Foo.Nope"
        = .error ("rpc server: can't find method " ++ String.mk "Nope".data)
      ∧ containsStr ("rpc server: can't find method " ++ String.mk "Nope".data)
          ("can't find method " ++ String.mk "Nope".data) :=
  ((findService_error_taxonomy
        [("Foo", ⟨"Foo", [("Sum", ⟨.structT "Args" "main", .ptr .int⟩)]⟩)] "Foo.Nope").2
      "Foo".data "Nope".data (by decide) (by decide)).2
    ⟨"Foo", [("Sum", ⟨.structT "Args" "main", .ptr .int⟩)]⟩ rfl rfl

/-- C2 counterexample: with timeout 5, an entry heartbeated at instant 0 and
queried at instant 5 — elapsed time exactly equal to the timeout — is not
reported alive and is purged, whereas the claim includes the boundary case
as alive. -/
theorem aliveServers_boundary_counterexample :
    ServerItem.isAlive 5 5 ⟨"A", 0⟩ = false
      ∧ (5 : Nat) - 0 ≤ 5
      ∧ (Registry.aliveServers ⟨5, [⟨"A", 0⟩]⟩ 5).1 = []
      ∧ (Registry.aliveServers ⟨5, [⟨"A", 0⟩]⟩ 5).2.servers = [] := by
  exact ⟨rfl, by decide, by decide, by decide⟩

/-- C2 (amended): an entry is reported alive iff the configured timeout is
zero or the elapsed time since its last heartbeat is strictly less than the
timeout — so a GET strictly before `last-heartbeat + timeout` includes the
address, the boundary instant itself already excludes it, and a zero timeout
never expires; the surviving map keeps exactly the alive entries. -/
theorem aliveServers_alive_iff (r : Registry) (now : Nat) (item : ServerItem)
    (hnd : (r.servers.map ServerItem.addr).Nodup) (hmem : item ∈ r.servers) :
    (item.addr ∈ (r.aliveServers now).1 ↔ r.timeout = 0 ∨ now < item.start + r.timeout)
      ∧ (item ∈ (r.aliveServers now).2.servers
          ↔ r.timeout = 0 ∨ now < item.start + r.timeout) := by
  have hiff : ServerItem.isAlive r.timeout now item = true
      ↔ (r.timeout = 0 ∨ now < item.start + r.timeout) := by
    simp [ServerItem.isAlive]
  constructor
  · rw [← hiff]
    constructor
    · intro hmem1
      have hmap : item.addr
          ∈ (r.servers.filter (ServerItem.isAlive r.timeout now)).map ServerItem.addr := by
        simpa [Registry.aliveServers, sortStrings, List.mem_insertionSort] using hmem1
      rcases List.mem_map.mp hmap with ⟨it2, hit2, haddr⟩
      have hit2s : it2 ∈ r.servers := (List.mem_filter.mp hit2).1
      have heq : it2 = item := List.inj_on_of_nodup_map hnd hit2s hmem haddr
      rw [← heq]
      exact (List.mem_filter.mp hit2).2
    · intro halive
      have hmap : item.addr
          ∈ (r.servers.filter (ServerItem.isAlive r.timeout now)).map ServerItem.addr :=
        List.mem_map.mpr ⟨item, List.mem_filter.mpr ⟨hmem, halive⟩, rfl⟩
      simpa [Registry.aliveServers, sortStrings, List.mem_insertionSort] using hmap
  · rw [← hiff]
    simp [Registry.aliveServers, List.mem_filter, hmem]

/-- Witness for C2 (amended) at a concrete registry: entry `B` heartbeated
at 3 with timeout 5 queried at 5 is alive (strictly inside the window). -/
theorem aliveServers_alive_iff_witness :
    (("B" : String) ∈ (Registry.aliveServers ⟨5, [⟨"A", 0⟩, ⟨"B", 3⟩]⟩ 5).1
        ↔ (5 : Nat) = 0 ∨ (5 : Nat) < 3 + 5)
      ∧ ((⟨"B", 3⟩ : ServerItem) ∈ (Registry.aliveServers ⟨5, [⟨"A", 0⟩, ⟨"B", 3⟩]⟩ 5).2.servers
        ↔ (5 : Nat) = 0 ∨ (5 : Nat) < 3 + 5) :=
  aliveServers_alive_iff ⟨5, [⟨"A", 0⟩, ⟨"B", 3⟩]⟩ 5 ⟨"B", 3⟩ (by decide) (by decide)

/-- Witness for C7 at a concrete registry: refreshing the single entry
`A`. -/
theorem serveHTTP_post_taxonomy_witness :
    ((("A" : String) ≠ "" →
        (Registry.serveHTTP ⟨5, [⟨"A", 0⟩]⟩ .POST "A" 7).1.status = 200
        ∧ (⟨"A", 7⟩ : ServerItem) ∈ (Registry.serveHTTP ⟨5, [⟨"A", 0⟩]⟩ .POST "A" 7).2.servers
        ∧ (∀ it : ServerItem, it.addr ≠ "A" →
            (it ∈ (Registry.serveHTTP ⟨5, [⟨"A", 0⟩]⟩ .POST "A" 7).2.servers
              ↔ it ∈ (⟨5, [⟨"A", 0⟩]⟩ : Registry).servers))
        ∧ (∀ it : ServerItem,
            it ∈ (Registry.serveHTTP ⟨5, [⟨"A", 0⟩]⟩ .POST "A" 7).2.servers →
            it.addr = "A" → it = ⟨"A", 7⟩))
      ∧ Registry.serveHTTP ⟨5, [⟨"A", 0⟩]⟩ .POST "" 7 = (⟨500, none⟩, ⟨5, [⟨"A", 0⟩]⟩)
      ∧ Registry.serveHTTP ⟨5, [⟨"A", 0⟩]⟩ .otherMethod "A" 7 = (⟨405, none⟩, ⟨5, [⟨"A", 0⟩]⟩)) :=
  serveHTTP_post_taxonomy ⟨5, [⟨"A", 0⟩]⟩ "A" 7

/-- C6: a GET answers with `X-GPMD-SERVERS` set to the comma-joined,
sorted (under the Go string order `goStrLe`) list of exactly the
currently-alive addresses, and the GET removes every expired entry from the
registry's map as a side effect. -/
theorem serveHTTP_get_sorted_alive (r : Registry) (now : Nat) :
    ∃ l : List String,
      (r.serveHTTP .GET "" now).1.serversHeader = some (String.intercalate "," l)
        ∧ List.Sorted (fun a b => goStrLe a b = true) l
        ∧ (∀ a : String, a ∈ l
            ↔ ∃ it ∈ r.servers, it.addr = a ∧ ServerItem.isAlive r.timeout now it = true)
        ∧ (r.serveHTTP .GET "" now).2.servers
            = r.servers.filter (ServerItem.isAlive r.timeout now)
        ∧ (∀ it ∈ r.servers, ServerItem.isAlive r.timeout now it = false →
            it ∉ (r.serveHTTP .GET "" now).2.servers) := by
  refine ⟨sortStrings ((r.servers.filter (ServerItem.isAlive r.timeout now)).map ServerItem.addr),
    rfl, ?_, ?_, rfl, ?_⟩
  · exact List.sorted_insertionSort _ _
  · intro a
    rw [sortStrings, List.mem_insertionSort]
    constructor
    · intro hmem
      rcases List.mem_map.mp hmem with ⟨it, hit, ha⟩
      exact ⟨it, (List.mem_filter.mp hit).1, ha, (List.mem_filter.mp hit).2⟩
    · rintro ⟨it, hits, ha, halive⟩
      exact List.mem_map.mpr ⟨it, List.mem_filter.mpr ⟨hits, halive⟩, ha⟩
  · intro it hits hdead hmem
    have hx := (List.mem_filter.mp hmem).2
    rw [hdead] at hx
    exact absurd hx (by decide)

/-- Witness for C6 at a concrete registry: `C` heartbeated at 0 has expired
at instant 5; `B` and `A` are alive and reported sorted. -/
theorem serveHTTP_get_sorted_alive_witness :
    ∃ l : List String,
      (Registry.serveHTTP ⟨5, [⟨"B", 2⟩, ⟨"A", 3⟩, ⟨"C", 0⟩]⟩ .GET "" 5).1.serversHeader
          = some (String.intercalate "," l)
        ∧ List.Sorted (fun a b => goStrLe a b = true) l
        ∧ (∀ a : String, a ∈ l
            ↔ ∃ it ∈ (⟨5, [⟨"B", 2⟩, ⟨"A", 3⟩, ⟨"C", 0⟩]⟩ : Registry).servers,
                it.addr = a ∧ ServerItem.isAlive 5 5 it = true)
        ∧ (Registry.serveHTTP ⟨5, [⟨"B", 2⟩, ⟨"A", 3⟩, ⟨"C", 0⟩]⟩ .GET "" 5).2.servers
            = (⟨5, [⟨"B", 2⟩, ⟨"A", 3⟩, ⟨"C", 0⟩]⟩ : Registry).servers.filter
                (ServerItem.isAlive 5 5)
        ∧ (∀ it ∈ (⟨5, [⟨"B", 2⟩, ⟨"A", 3⟩, ⟨"C", 0⟩]⟩ : Registry).servers,
            ServerItem.isAlive 5 5 it = false →
            it ∉ (Registry.serveHTTP ⟨5, [⟨"B", 2⟩, ⟨"A", 3⟩, ⟨"C", 0⟩]⟩ .GET "" 5).2.servers) :=
  serveHTTP_get_sorted_alive ⟨5, [⟨"B", 2⟩, ⟨"A", 3⟩, ⟨"C", 0⟩]⟩ 5

theorem get_rr_eq (d : MultiServerDiscovery) (h : 0 < d.servers.length) :
    d.Get .RoundRobinSelect 0
      = .ok (d.servers.get ⟨d.index % d.servers.length, Nat.mod_lt _ h⟩,
             ⟨d.servers, (d.index + 1) % d.servers.length⟩) := by
  rw [MultiServerDiscovery.Get, dif_neg (Nat.pos_iff_ne_zero.mp h)]

theorem rrRun_empty : ∀ (b : Nat) (d : MultiServerDiscovery),
    d.servers.length = 0 → rrRun d b = ([], d)
  | 0, _, _ => rfl
  | b + 1, d, h => by
    rw [rrRun, MultiServerDiscovery.Get, dif_pos h]

theorem rrRun_state : ∀ (k : Nat) (d : MultiServerDiscovery), 0 < d.servers.length →
    (rrRun d (k + 1)).2 = ⟨d.servers, (d.index + (k + 1)) % d.servers.length⟩
  | 0, d, h => by
    rw [rrRun, get_rr_eq d h]
    rfl
  | k + 1, d, h => by
    rw [rrRun, get_rr_eq d h]
    show (rrRun (⟨d.servers, (d.index + 1) % d.servers.length⟩ : MultiServerDiscovery)
        (k + 1)).2 = _
    rw [rrRun_state k ⟨d.servers, (d.index + 1) % d.servers.length⟩ h]
    show (⟨d.servers, ((d.index + 1) % d.servers.length + (k + 1)) % d.servers.length⟩
        : MultiServerDiscovery) = _
    rw [Nat.mod_add_mod]
    rw [show d.index + 1 + (k + 1) = d.index + (k + 1 + 1) from by omega]

theorem rrRun_results : ∀ (k : Nat) (d : MultiServerDiscovery), 0 < d.servers.length →
    (rrRun d k).1
      = (List.range k).map (fun j => d.servers.getD ((d.index + j) % d.servers.length) "")
  | 0, _, _ => rfl
  | k + 1, d, h => by
    rw [rrRun, get_rr_eq d h]
    show d.servers.get ⟨d.index % d.servers.length, Nat.mod_lt _ h⟩
        :: (rrRun (⟨d.servers, (d.index + 1) % d.servers.length⟩ : MultiServerDiscovery) k).1
        = _
    rw [rrRun_results k ⟨d.servers, (d.index + 1) % d.servers.length⟩ h]
    rw [List.range_succ_eq_map, List.map_cons, List.map_map]
    congr 1
    · rw [List.getD_eq_getElem d.servers "" (Nat.mod_lt _ h)]
      rfl
    · apply List.map_congr_left
      intro j _
      show d.servers.getD (((d.index + 1) % d.servers.length + j) % d.servers.length) ""
          = d.servers.getD ((d.index + Nat.succ j) % d.servers.length) ""
      rw [Nat.mod_add_mod,
        show d.index + 1 + j = d.index + Nat.succ j from by omega]

theorem rrRun_rotation (d : MultiServerDiscovery) (h : 0 < d.servers.length) :
    (rrRun d d.servers.length).1 = d.servers.rotate (d.index % d.servers.length) := by
  rw [rrRun_results d.servers.length d h]
  apply List.ext_getElem
  · rw [List.length_map, List.length_range, List.length_rotate]
  · intro i h1 h2
    have hi : i < d.servers.length := by
      simpa using h1
    rw [List.getElem_map, List.getElem_range, List.getElem_rotate]
    rw [← List.getD_eq_getElem d.servers ""]
    have hidx : (i + d.index % d.servers.length) % d.servers.length
        = (d.index + i) % d.servers.length := by
      rw [Nat.add_comm i (d.index % d.servers.length), Nat.mod_add_mod,
        Nat.add_comm d.index i]
    rw [hidx]

theorem rrRun_append : ∀ (a b : Nat) (d : MultiServerDiscovery),
    (rrRun d (a + b)).1 = (rrRun d a).1 ++ (rrRun (rrRun d a).2 b).1
      ∧ (rrRun d (a + b)).2 = (rrRun (rrRun d a).2 b).2
  | 0, b, d => by
    rw [Nat.zero_add]
    exact ⟨rfl, rfl⟩
  | a + 1, b, d => by
    by_cases hlen : d.servers.length = 0
    · rw [show a + 1 + b = (a + b) + 1 from by omega]
      rw [rrRun_empty (a + b + 1) d hlen, rrRun_empty (a + 1) d hlen,
        rrRun_empty b d hlen]
      simp
    · have h : 0 < d.servers.length := Nat.pos_of_ne_zero hlen
      have e1 : rrRun d (a + 1)
          = (d.servers.get ⟨d.index % d.servers.length, Nat.mod_lt _ h⟩
              :: (rrRun ⟨d.servers, (d.index + 1) % d.servers.length⟩ a).1,
             (rrRun ⟨d.servers, (d.index + 1) % d.servers.length⟩ a).2) := by
        rw [rrRun, get_rr_eq d h]
      have e2 : rrRun d (a + b + 1)
          = (d.servers.get ⟨d.index % d.servers.length, Nat.mod_lt _ h⟩
              :: (rrRun ⟨d.servers, (d.index + 1) % d.servers.length⟩ (a + b)).1,
             (rrRun ⟨d.servers, (d.index + 1) % d.servers.length⟩ (a + b)).2) := by
        rw [rrRun, get_rr_eq d h]
      rw [show a + 1 + b = (a + b) + 1 from by omega, e2, e1]
      have ih := rrRun_append a b ⟨d.servers, (d.index + 1) % d.servers.length⟩
      constructor
      · show d.servers.get ⟨d.index % d.servers.length, Nat.mod_lt _ h⟩
            :: (rrRun (⟨d.servers, (d.index + 1) % d.servers.length⟩
                : MultiServerDiscovery) (a + b)).1
            = (d.servers.get ⟨d.index % d.servers.length, Nat.mod_lt _ h⟩
                :: (rrRun (⟨d.servers, (d.index + 1) % d.servers.length⟩
                    : MultiServerDiscovery) a).1)
              ++ (rrRun (rrRun (⟨d.servers, (d.index + 1) % d.servers.length⟩
                  : MultiServerDiscovery) a).2 b).1
        rw [List.cons_append, ih.1]
      · show (rrRun (⟨d.servers, (d.index + 1) % d.servers.length⟩
            : MultiServerDiscovery) (a + b)).2
            = (rrRun (rrRun (⟨d.servers, (d.index + 1) % d.servers.length⟩
                : MultiServerDiscovery) a).2 b).2
        exact ih.2

/-- C8: with a held-fixed non-empty server list of size `n`, `n` consecutive
`Get(RoundRobinSelect)` calls return a rotation of the list — each entry
exactly once, in cursor order starting at the seed offset — and a further
block of `n` calls repeats the same sequence (period `n`). -/
theorem roundRobin_rotation_and_period (d : MultiServerDiscovery)
    (h : 0 < d.servers.length) :
    (rrRun d d.servers.length).1 = d.servers.rotate (d.index % d.servers.length)
      ∧ (rrRun d d.servers.length).1.Perm d.servers
      ∧ (rrRun d (d.servers.length + d.servers.length)).1
          = (rrRun d d.servers.length).1 ++ (rrRun d d.servers.length).1 := by
  refine ⟨rrRun_rotation d h, ?_, ?_⟩
  · rw [rrRun_rotation d h]
    exact List.rotate_perm _ _
  · rw [(rrRun_append d.servers.length d.servers.length d).1]
    congr 1
    obtain ⟨k, hk⟩ : ∃ k, d.servers.length = k + 1 := ⟨d.servers.length - 1, by omega⟩
    have hst : (rrRun d d.servers.length).2
        = ⟨d.servers, (d.index + d.servers.length) % d.servers.length⟩ := by
      conv_lhs => rw [hk]
      rw [rrRun_state k d h, ← hk]
    rw [hst]
    rw [rrRun_results d.servers.length ⟨d.servers,
      (d.index + d.servers.length) % d.servers.length⟩ h]
    rw [rrRun_results d.servers.length d h]
    apply List.map_congr_left
    intro j _
    show d.servers.getD
        (((d.index + d.servers.length) % d.servers.length + j) % d.servers.length) ""
        = d.servers.getD ((d.index + j) % d.servers.length) ""
    rw [Nat.mod_add_mod]
    rw [show d.index + d.servers.length + j = d.index + j + d.servers.length from by omega]
    rw [Nat.add_mod_right]

/-- Witness for C8: a three-entry list with seed cursor 7 — three calls
yield the rotation starting at position 1, a permutation of the list, and
six calls repeat it. -/
theorem roundRobin_rotation_and_period_witness :
    (rrRun ⟨["a", "b", "c"], 7⟩ (["a", "b", "c"] : List String).length).1
        = (["a", "b", "c"] : List String).rotate (7 % (["a", "b", "c"] : List String).length)
      ∧ (rrRun ⟨["a", "b", "c"], 7⟩ (["a", "b", "c"] : List String).length).1.Perm
          ["a", "b", "c"]
      ∧ (rrRun ⟨["a", "b", "c"], 7⟩
            ((["a", "b", "c"] : List String).length + (["a", "b", "c"] : List String).length)).1
          = (rrRun ⟨["a", "b", "c"], 7⟩ (["a", "b", "c"] : List String).length).1
            ++ (rrRun ⟨["a", "b", "c"], 7⟩ (["a", "b", "c"] : List String).length).1 :=
  roundRobin_rotation_and_period ⟨["a", "b", "c"], 7⟩ (by decide)

theorem clInv_init : ClInv initClState := by
  refine ⟨Nat.le_refl 1, ?_, List.nodup_nil, ?_, ?_, ?_, ?_, ?_⟩
  · intro x hx
    exact absurd hx (List.not_mem_nil x)
  · intro x hx
    exact absurd hx (List.not_mem_nil x)
  · intro x
    simp [initClState]
  · intro x hx
    exact absurd hx (List.not_mem_nil x)
  · intro x hx1 hx2
    have hx2' : x < 1 := hx2
    exact absurd hx2' (by omega)
  · intro ht
    exact absurd ht (by decide)

theorem clInv_removeSignal (st : ClState) (s : Nat) (hinv : ClInv st) (hs : s ∈ st.pending) :
    ClInv { st with pending := st.pending.erase s, signals := s :: st.signals } := by
  obtain ⟨h1, h2, h3, h4, h5, h6, h7, h8⟩ := hinv
  refine ⟨h1, ?_, h3.erase s, ?_, ?_, ?_, ?_, ?_⟩
  · intro x hx
    exact h2 x (List.mem_of_mem_erase hx)
  · intro x hx
    obtain ⟨hxs, hxp⟩ := h3.mem_erase_iff.mp hx
    rw [List.count_cons_of_ne hxs]
    exact h4 x hxp
  · intro x
    by_cases hxs : x = s
    · subst hxs
      rw [List.count_cons_self, h4 x hs]
    · rw [List.count_cons_of_ne hxs]
      exact h5 x
  · intro x hx
    rcases List.mem_cons.mp hx with hh | hh
    · subst hh
      exact h2 x hs
    · exact h6 x hh
  · intro x hx1 hx2
    rcases h7 x hx1 hx2 with hp | hc
    · by_cases hxs : x = s
      · subst hxs
        right
        rw [List.count_cons_self, h4 x hs]
      · left
        exact h3.mem_erase_iff.mpr ⟨hxs, hp⟩
    · right
      have hxs : x ≠ s := by
        intro he
        subst he
        rw [h4 x hs] at hc
        exact absurd hc (by decide)
      rw [List.count_cons_of_ne hxs]
      exact hc
  · intro ht
    exact absurd hs (by rw [(h8 ht).1]; exact List.not_mem_nil s)

theorem clInv_step (st : ClState) (e : Ev) (hinv : ClInv st) : ClInv (step st e) := by
  obtain ⟨h1, h2, h3, h4, h5, h6, h7, h8⟩ := hinv
  cases e with
  | reg =>
    rw [step]
    by_cases hg : (st.closing || st.shutdown) = true
    · rw [if_pos hg]
      exact ⟨h1, h2, h3, h4, h5, h6, h7, h8⟩
    · rw [if_neg hg]
      have hfresh : st.seq ∉ st.pending := by
        intro hin
        exact absurd (h2 st.seq hin).2 (Nat.lt_irrefl st.seq)
      have hfresh2 : st.seq ∉ st.signals := by
        intro hin
        exact absurd (h6 st.seq hin).2 (Nat.lt_irrefl st.seq)
      refine ⟨Nat.le_succ_of_le h1, ?_, List.nodup_cons.mpr ⟨hfresh, h3⟩, ?_, h5, ?_, ?_, ?_⟩
      · intro x hx
        rcases List.mem_cons.mp hx with hh | hh
        · subst hh
          exact ⟨h1, Nat.lt_succ_self _⟩
        · obtain ⟨ha, hb⟩ := h2 x hh
          exact ⟨ha, Nat.lt_succ_of_lt hb⟩
      · intro x hx
        rcases List.mem_cons.mp hx with hh | hh
        · subst hh
          exact List.count_eq_zero.mpr hfresh2
        · exact h4 x hh
      · intro x hx
        obtain ⟨ha, hb⟩ := h6 x hx
        exact ⟨ha, Nat.lt_succ_of_lt hb⟩
      · intro x hx1 hx2
        have hx2' : x < st.seq + 1 := hx2
        by_cases hxe : x = st.seq
        · subst hxe
          exact Or.inl (List.mem_cons_self _ _)
        · have : x < st.seq := by omega
          rcases h7 x hx1 this with hp | hc
          · exact Or.inl (List.mem_cons_of_mem _ hp)
          · exact Or.inr hc
      · intro ht
        have hsd := (h8 ht).2
        rw [hsd] at hg
        simp at hg
  | regFail =>
    rw [step]
    by_cases hg : (st.closing || st.shutdown) = true
    · rw [if_pos hg]
      exact ⟨h1, h2, h3, h4, h5, h6, h7, h8⟩
    · rw [if_neg hg]
      exact ⟨h1, h2, h3, h4, h5, h6, h7, h8⟩
  | writeFail s =>
    rw [step]
    by_cases hmem : s ∈ st.pending
    · rw [if_pos hmem]
      exact clInv_removeSignal st s ⟨h1, h2, h3, h4, h5, h6, h7, h8⟩ hmem
    · rw [if_neg hmem]
      exact ⟨h1, h2, h3, h4, h5, h6, h7, h8⟩
  | deliver s =>
    rw [step]
    by_cases hterm : st.terminated = true
    · rw [if_neg (by simp [hterm])]
      exact ⟨h1, h2, h3, h4, h5, h6, h7, h8⟩
    · by_cases hmem : s ∈ st.pending
      · rw [if_pos (by simp [hmem]; simp at hterm; simp [hterm])]
        exact clInv_removeSignal st s ⟨h1, h2, h3, h4, h5, h6, h7, h8⟩ hmem
      · rw [if_neg (by simp [hmem])]
        exact ⟨h1, h2, h3, h4, h5, h6, h7, h8⟩
  | close =>
    exact ⟨h1, h2, h3, h4, h5, h6, h7, h8⟩
  | terminate =>
    rw [step]
    by_cases hterm : st.terminated = true
    · rw [if_pos hterm]
      exact ⟨h1, h2, h3, h4, h5, h6, h7, h8⟩
    · rw [if_neg hterm]
      refine ⟨h1, ?_, List.nodup_nil, ?_, ?_, ?_, ?_, ?_⟩
      · intro x hx
        exact absurd hx (List.not_mem_nil x)
      · intro x hx
        exact absurd hx (List.not_mem_nil x)
      · intro x
        rw [List.count_append]
        by_cases hp : x ∈ st.pending
        · rw [List.count_eq_one_of_mem h3 hp, h4 x hp]
        · rw [List.count_eq_zero.mpr hp]
          simpa using h5 x
      · intro x hx
        rcases List.mem_append.mp hx with hh | hh
        · exact h2 x hh
        · exact h6 x hh
      · intro x hx1 hx2
        right
        rw [List.count_append]
        rcases h7 x hx1 hx2 with hp | hc
        · rw [List.count_eq_one_of_mem h3 hp, h4 x hp]
        · have hnp : x ∉ st.pending := by
            intro hin
            rw [h4 x hin] at hc
            exact absurd hc (by decide)
          rw [List.count_eq_zero.mpr hnp, hc]
      · intro _
        exact ⟨rfl, rfl⟩

theorem clInv_foldl : ∀ (es : List Ev) (st : ClState), ClInv st → ClInv (es.foldl step st)
  | [], _, hinv => hinv
  | e :: es, st, hinv => clInv_foldl es (step st e) (clInv_step st e hinv)

theorem clInv_run (es : List Ev) : ClInv (runClient es) :=
  clInv_foldl es initClState clInv_init

/-- C4: in every client history — interleaving successful sends, send-side
evictions (registration failure and write failure), response deliveries by
the receive loop, `Close`, and the `terminateCalls` fan-out — no registered
call's sequence number is ever signalled more than once, and once the
receive loop has terminated every handed-out sequence number has been
signalled exactly once (registration-failure calls are signalled exactly
once by their single eviction, counted separately in `regFailSignals`). -/
theorem client_call_signalled_exactly_once (es : List Ev) :
    (∀ x, (runClient es).signals.count x ≤ 1)
      ∧ ((runClient es).terminated = true →
          ∀ x, 1 ≤ x → x < (runClient es).seq → (runClient es).signals.count x = 1) := by
  obtain ⟨h1, h2, h3, h4, h5, h6, h7, h8⟩ := clInv_run es
  refine ⟨h5, ?_⟩
  intro ht x hx1 hx2
  rcases h7 x hx1 hx2 with hp | hc
  · rw [(h8 ht).1] at hp
    exact absurd hp (List.not_mem_nil x)
  · exact hc

/-- Witness for C4: a five-event history — two registrations, one delivery,
a close, then termination — in which call 1 is signalled by the receive loop
and call 2 by the terminate fan-out, each exactly once. -/
theorem client_call_signalled_exactly_once_witness :
    (runClient [.reg, .reg, .deliver 1, .close, .terminate]).signals.count 1 ≤ 1
      ∧ (runClient [.reg, .reg, .deliver 1, .close, .terminate]).signals.count 2 = 1 :=
  ⟨(client_call_signalled_exactly_once [.reg, .reg, .deliver 1, .close, .terminate]).1 1,
   (client_call_signalled_exactly_once [.reg, .reg, .deliver 1, .close, .terminate]).2
     (by decide) 2 (by decide) (by decide)⟩

end Gpmd
